import Mathlib

/-!
Shallow embedding of the persistence/identity core of the
`engineer-consolidation-app` repository (frontend/src/storage):

* `db.js`       — three IndexedDB object stores: `profiles` (keyPath `profileId`),
                  `progress` (keyPath `[profileId, lessonId]`, index `byProfileId`),
                  `quizResults` (keyPath auto-increment `id`, indexes `byProfileId`,
                  `byProfileQuizId`).
* `profiles.js` — profile CRUD, PIN management, cascading delete, export/import.
* `progress.js` — lesson-progress upserts and per-profile map.
* `quiz.js`     — quiz-result append log and best-score aggregation.
* `crypto.js`   — PBKDF2 PIN-hash derivation via WebCrypto.

Modelling conventions:
* The database is a record of lists of rows (insertion order = ascending
  primary-key order for the auto-increment store, which is also the iteration
  order of `getAll`/`getAllFromIndex` on the `byProfileId` index filtered to one
  profile).
* IndexedDB `put` with a keyPath replaces the row with the matching key, or
  appends when no row has the key.
* Nondeterministic platform inputs (current time, fresh UUIDs, random salt)
  are passed as explicit parameters.
* The PBKDF2 derivation (`derivePinHashBase64`) calls WebCrypto, a platform
  primitive outside this repository; it is modelled as an explicit function
  parameter `hash : String → String → String` (pin, then base64 salt), which is
  deterministic by construction, matching §4.2's determinism contract.
* JavaScript truthiness on nullable string fields (`!profile.pinHash`,
  `r.completedAt || null`) is modelled by `optTruthy`/`normOpt` on
  `Option String` (both `none` and `some ""` are falsy).
* Fallible operations return `Except String`; operations whose failure can
  leave a visible state change additionally return the visible database.
* Transactions are modelled with an explicit abort parameter: an aborted
  transaction leaves the database exactly as it was when the transaction
  started (IndexedDB rolls back every write of an aborted transaction).
-/

/-- A row of the `profiles` object store (keyPath `profileId`). -/
structure Profile where
  profileId : String
  name : String
  createdAt : String
  updatedAt : String
  pinSalt : Option String
  pinHash : Option String
deriving Repr, DecidableEq

/-- A row of the `progress` object store (keyPath `[profileId, lessonId]`). -/
structure ProgressRow where
  profileId : String
  lessonId : String
  completed : Bool
  completedAt : Option String
deriving Repr, DecidableEq

/-- A row of the `quizResults` object store (keyPath auto-increment `id`).
`answers` is the question-index ↦ selected-option-index mapping; `percentage`
is `Option` because rows inserted by `importProfileData` leave it `undefined`
when `totalQuestions` is falsy. -/
structure QuizRow where
  id : Nat
  profileId : String
  quizId : String
  score : Nat
  totalQuestions : Nat
  answers : List (Nat × Nat)
  completedAt : String
  percentage : Option Nat
deriving Repr, DecidableEq

/-- The whole IndexedDB database `engineerDevApp`: the three object stores plus
the auto-increment counter of `quizResults`. -/
structure Db where
  profiles : List Profile
  progress : List ProgressRow
  quizResults : List QuizRow
  nextQuizId : Nat
deriving Repr, DecidableEq

deriving instance DecidableEq for Except

/-- JavaScript `String.prototype.trim()`: strip leading and trailing
whitespace.  (Equivalent to Lean core's `String.trim`, which is defined by
well-founded recursion on byte positions and therefore does not evaluate
inside `decide`; this structural version does.) -/
def jsTrim (s : String) : String :=
  ⟨((s.data.dropWhile Char.isWhitespace).reverse.dropWhile Char.isWhitespace).reverse⟩

/-- JavaScript truthiness of a nullable string (`null`/`undefined` and `""` are
falsy). -/
def optTruthy : Option String → Bool
  | none => false
  | some s => !(s == "")

/-- The JavaScript idiom `x || null` on a nullable string. -/
def normOpt (o : Option String) : Option String :=
  if optTruthy o then o else none

/-- Composite key of a progress row, the store's keyPath
`['profileId', 'lessonId']`. -/
def progKey (r : ProgressRow) : String × String :=
  (r.profileId, r.lessonId)

/-- IndexedDB `put` on the `profiles` store: replace the row whose `profileId`
matches, else append. -/
def putProfileRow (p : Profile) (l : List Profile) : List Profile :=
  if l.any (fun q => q.profileId == p.profileId) then
    l.map (fun q => if q.profileId == p.profileId then p else q)
  else l ++ [p]

/-- IndexedDB `put` on the `progress` store: replace the row whose composite
key matches, else append. -/
def putProgressRow (r : ProgressRow) (l : List ProgressRow) : List ProgressRow :=
  if l.any (fun s => progKey s == progKey r) then
    l.map (fun s => if progKey s == progKey r then r else s)
  else l ++ [r]

/-- `db.get(STORES.profiles, profileId)` — also the body of
`getProfile(profileId)` in profiles.js. -/
def getProfile (db : Db) (profileId : String) : Option Profile :=
  db.profiles.find? (fun p => p.profileId == profileId)

/-- `createProfile({ name, pin })` from profiles.js.  Parameters `profileId`
(fresh UUID from `newId()`), `now` (`nowIso()`), `salt`
(`generateSaltBase64()`) and `hash` (`derivePinHashBase64`) model the
platform inputs.  `pin = none` models an absent/null pin; `some ""` is falsy
in JS, so it also skips derivation. -/
def createProfile (hash : String → String → String) (profileId now salt : String)
    (name : String) (pin : Option String) (db : Db) : Except String (Profile × Db) :=
  if jsTrim name == "" then .error "Profile name is required"
  else
    let pinPair : Option String × Option String :=
      match pin with
      | some p => if p == "" then (none, none) else (some salt, some (hash p salt))
      | none => (none, none)
    let profile : Profile :=
      { profileId := profileId, name := jsTrim name, createdAt := now, updatedAt := now,
        pinSalt := pinPair.1, pinHash := pinPair.2 }
    .ok (profile, { db with profiles := putProfileRow profile db.profiles })

/-- `renameProfile(profileId, name)` from profiles.js. -/
def renameProfile (profileId name now : String) (db : Db) : Except String (Profile × Db) :=
  if jsTrim name == "" then .error "Profile name is required"
  else
    match getProfile db profileId with
    | none => .error "Profile not found"
    | some profile =>
      let profile := { profile with name := jsTrim name, updatedAt := now }
      .ok (profile, { db with profiles := putProfileRow profile db.profiles })

/-- `setProfilePin(profileId, pin)` from profiles.js. -/
def setProfilePin (hash : String → String → String) (profileId pin now salt : String)
    (db : Db) : Except String (Profile × Db) :=
  if pin == "" || pin.length < 4 then .error "PIN must be at least 4 characters"
  else
    match getProfile db profileId with
    | none => .error "Profile not found"
    | some profile =>
      let profile := { profile with
        pinSalt := some salt, pinHash := some (hash pin salt), updatedAt := now }
      .ok (profile, { db with profiles := putProfileRow profile db.profiles })

/-- `clearProfilePin(profileId)` from profiles.js. -/
def clearProfilePin (profileId now : String) (db : Db) : Except String (Profile × Db) :=
  match getProfile db profileId with
  | none => .error "Profile not found"
  | some profile =>
    let profile := { profile with pinSalt := none, pinHash := none, updatedAt := now }
    .ok (profile, { db with profiles := putProfileRow profile db.profiles })

/-- `verifyProfilePin(profileId, pin)` from profiles.js: `false` when the
profile does not exist, `true` when no (truthy) pinHash/pinSalt is stored,
otherwise hash comparison. -/
def verifyProfilePin (hash : String → String → String) (db : Db)
    (profileId pin : String) : Bool :=
  match getProfile db profileId with
  | none => false
  | some profile =>
    if !(optTruthy profile.pinHash) || !(optTruthy profile.pinSalt) then true
    else hash pin (profile.pinSalt.getD "") == profile.pinHash.getD ""

/-! ### Progress store (progress.js) -/

/-- `getProgressMap(profileId)`: reads all progress rows of the profile via the
`byProfileId` index and folds them into a lessonId-keyed map.  The JS object is
modelled as a lookup function; each entry is
`(completed, completedAt || null)`. -/
def getProgressMap (db : Db) (profileId : String) : String → Option (Bool × Option String) :=
  (db.progress.filter (fun r => r.profileId == profileId)).foldl
    (fun m r => fun l => if l == r.lessonId then some (r.completed, normOpt r.completedAt) else m l)
    (fun _ => none)

/-- `markLessonComplete(profileId, lessonId)`: upsert
`{completed: true, completedAt: now}` under the composite key. -/
def markLessonComplete (db : Db) (profileId lessonId now : String) : Db :=
  let row : ProgressRow :=
    { profileId := profileId, lessonId := lessonId, completed := true, completedAt := some now }
  { db with progress := putProgressRow row db.progress }

/-- `markLessonIncomplete(profileId, lessonId)`: upsert
`{completed: false, completedAt: null}` under the composite key. -/
def markLessonIncomplete (db : Db) (profileId lessonId : String) : Db :=
  let row : ProgressRow :=
    { profileId := profileId, lessonId := lessonId, completed := false, completedAt := none }
  { db with progress := putProgressRow row db.progress }

/-! ### Quiz result store (quiz.js) -/

/-- `Math.round((score / totalQuestions) * 100)` of quiz.js, modelled in exact
rational arithmetic: round-half-up of `100 * score / total`, i.e.
`⌊(200*score + total) / (2*total)⌋`.  (`Math.round` on doubles rounds half
toward +∞; for nonnegative arguments that is round-half-up.  `total = 0`,
which yields `NaN` in JS, is outside the modelled domain.) -/
def jsRoundPct (score total : Nat) : Nat :=
  (200 * score + total) / (2 * total)

/-- `submitQuizResult(profileId, quizId, score, totalQuestions, answers)`:
computes the percentage, appends a fresh auto-increment row, and returns
`{id, completedAt, percentage}`. -/
def submitQuizResult (db : Db) (profileId quizId : String) (score totalQuestions : Nat)
    (answers : List (Nat × Nat)) (now : String) : (Nat × String × Nat) × Db :=
  let percentage := jsRoundPct score totalQuestions
  let id := db.nextQuizId
  let row : QuizRow :=
    { id := id, profileId := profileId, quizId := quizId, score := score,
      totalQuestions := totalQuestions, answers := answers, completedAt := now,
      percentage := some percentage }
  ((id, now, percentage),
   { db with quizResults := db.quizResults ++ [row], nextQuizId := id + 1 })

/-- The effective percentage `getBestQuizScores` uses for a row:
`r.percentage !== undefined ? r.percentage : Math.round((r.score / r.totalQuestions) * 100)`. -/
def effPct (r : QuizRow) : Nat :=
  r.percentage.getD (jsRoundPct r.score r.totalQuestions)

/-- One entry of the `bestScores` mapping. -/
structure BestEntry where
  score : Nat
  totalQuestions : Nat
  percentage : Nat
  completedAt : String
deriving Repr, DecidableEq

/-- The `BestEntry` recorded for a row by `getBestQuizScores`. -/
def toBestEntry (r : QuizRow) : BestEntry :=
  { score := r.score, totalQuestions := r.totalQuestions, percentage := effPct r,
    completedAt := r.completedAt }

/-- The loop body of `getBestQuizScores`: keep the previous entry unless there
is none or the new row's percentage is strictly greater. -/
def bestStep (m : String → Option BestEntry) (r : QuizRow) : String → Option BestEntry :=
  match m r.quizId with
  | none => fun q => if q == r.quizId then some (toBestEntry r) else m q
  | some prev =>
    if effPct r > prev.percentage then
      fun q => if q == r.quizId then some (toBestEntry r) else m q
    else m

/-- `getBestQuizScores(profileId)`: fold the profile's rows (in `byProfileId`
index order, i.e. ascending `id`, i.e. insertion order) into a quizId-keyed
map of best entries. -/
def getBestQuizScores (db : Db) (profileId : String) : String → Option BestEntry :=
  (db.quizResults.filter (fun r => r.profileId == profileId)).foldl bestStep (fun _ => none)

/-! ### Cascading delete (profiles.js, deleteProfile) -/

/-- The committed effect of the `deleteProfile` transaction: delete the
profile row by primary key, then walk the `byProfileId` cursor on `progress`
deleting each matched row by its composite key, then walk the `byProfileId`
cursor on `quizResults` deleting each matched row by its `id`.  The three
phases touch disjoint stores of the shared transaction, so the state is
written per store; each cursor deletion is one single-key filter. -/
def deleteProfileCommitted (db : Db) (profileId : String) : Db :=
  { db with
    profiles := db.profiles.filter (fun p => !(p.profileId == profileId)),
    progress :=
      ((db.progress.filter (fun r => r.profileId == profileId)).map progKey).foldl
        (fun l k => l.filter (fun r => !(progKey r == k))) db.progress,
    quizResults :=
      ((db.quizResults.filter (fun r => r.profileId == profileId)).map (fun r => r.id)).foldl
        (fun l i => l.filter (fun r => !(r.id == i))) db.quizResults }

/-- `deleteProfile(profileId)`: one read-write transaction over all three
stores.  `failAt = some k` models a failure at the k-th row deletion (or at
commit, for `k` past the last step): the transaction aborts and IndexedDB
rolls back every write of the transaction, so the visible database is
unchanged.  `failAt = none` commits all deletions. -/
def deleteProfile (db : Db) (profileId : String) (failAt : Option Nat) : Db :=
  match failAt with
  | some _ => db
  | none => deleteProfileCommitted db profileId

/-! ### Export / import serializer (profiles.js) -/

/-- The `profile` object of an export snapshot (PIN fields intentionally
omitted). -/
structure SnapshotProfile where
  profileId : String
  name : String
  createdAt : String
  updatedAt : String
deriving Repr, DecidableEq

/-- A progress entry of a snapshot. -/
structure ProgressExport where
  lessonId : String
  completed : Bool
  completedAt : Option String
deriving Repr, DecidableEq

/-- A quiz-result entry of a snapshot. -/
structure QuizExport where
  quizId : String
  score : Nat
  totalQuestions : Nat
  answers : List (Nat × Nat)
  completedAt : String
deriving Repr, DecidableEq

/-- An export snapshot.  `profile` is `Option` so that `data.profile?.name`
on a malformed import file is representable. -/
structure Snapshot where
  version : Nat
  exportedAt : String
  profile : Option SnapshotProfile
  progress : List ProgressExport
  quizResults : List QuizExport
deriving Repr, DecidableEq

/-- `exportProfileData(profileId)`: assemble the versioned snapshot from the
profile row and the two `byProfileId` index scans. -/
def exportProfileData (db : Db) (profileId now : String) : Except String Snapshot :=
  match getProfile db profileId with
  | none => .error "Profile not found"
  | some profile =>
    .ok { version := 1, exportedAt := now,
          profile := some { profileId := profile.profileId, name := profile.name,
                            createdAt := profile.createdAt, updatedAt := profile.updatedAt },
          progress := (db.progress.filter (fun r => r.profileId == profileId)).map
            (fun r => { lessonId := r.lessonId, completed := r.completed,
                        completedAt := normOpt r.completedAt }),
          quizResults := (db.quizResults.filter (fun r => r.profileId == profileId)).map
            (fun r => { quizId := r.quizId, score := r.score,
                        totalQuestions := r.totalQuestions, answers := r.answers,
                        completedAt := r.completedAt }) }

/-- The progress row `importProfileData` upserts for a snapshot entry. -/
def importProgressRow (profileId : String) (p : ProgressExport) : ProgressRow :=
  { profileId := profileId, lessonId := p.lessonId, completed := p.completed,
    completedAt := normOpt p.completedAt }

/-- The quiz row `importProfileData` appends for a snapshot entry, given the
auto-increment key `id`. -/
def importQuizRow (profileId now : String) (id : Nat) (q : QuizExport) : QuizRow :=
  { id := id, profileId := profileId, quizId := q.quizId, score := q.score,
    totalQuestions := q.totalQuestions, answers := q.answers,
    completedAt := if q.completedAt == "" then now else q.completedAt,
    percentage := if q.totalQuestions == 0 then none
      else some (jsRoundPct q.score q.totalQuestions) }

/-- The write batch of `importProfileData`, executed inside the single
read-write transaction: overwrite the profile name, upsert each progress
entry (skipping falsy lessonIds), append each quiz entry (skipping falsy
quizIds), recomputing `percentage` when `totalQuestions` is truthy.  The
three loops of the source touch disjoint stores of the shared transaction,
so the state is written per store. -/
def importTxBody (data : Snapshot) (profileId name now : String) (db : Db) : Db :=
  let profiles' :=
    match getProfile db profileId with
    | none => db.profiles
    | some profile => putProfileRow { profile with name := name, updatedAt := now } db.profiles
  let progress' := data.progress.foldl
    (fun l p => if p.lessonId == "" then l else putProgressRow (importProgressRow profileId p) l)
    db.progress
  let quizPair := data.quizResults.foldl
    (fun (acc : List QuizRow × Nat) q =>
      if q.quizId == "" then acc
      else (acc.1 ++ [importQuizRow profileId now acc.2 q], acc.2 + 1))
    (db.quizResults, db.nextQuizId)
  { profiles := profiles', progress := progress',
    quizResults := quizPair.1, nextQuizId := quizPair.2 }

/-- `importProfileData(data, { overwriteProfileId })`.  Returns the outcome
(`profileId` or the thrown error) together with the database state visible
afterwards.  `data = none` models a non-object import file.  `newProfileId`
is the fresh UUID `createProfile` would draw; `txAborts = true` models a
failure inside the write-batch transaction, which IndexedDB rolls back —
note the brand-new profile (when `overwriteProfileId` is absent) is created
*before* the transaction starts. -/
def importProfileData (hash : String → String → String) (data : Option Snapshot)
    (overwriteProfileId : Option String) (newProfileId now salt : String)
    (txAborts : Bool) (db : Db) : Except String String × Db :=
  match data with
  | none => (.error "Invalid import file", db)
  | some data =>
    if data.version != 1 then (.error "Unsupported import version", db)
    else
      match data.profile with
      | none => (.error "Import is missing profile name", db)
      | some sp =>
        if sp.name == "" then (.error "Import is missing profile name", db)
        else
          let acquired : Except String (String × Db) :=
            match overwriteProfileId with
            | some pid =>
              match getProfile db pid with
              | none => .error "Target profile not found"
              | some _ => .ok (pid, db)
            | none =>
              match createProfile hash newProfileId now salt sp.name none db with
              | .error e => .error e
              | .ok (created, db) => .ok (created.profileId, db)
          match acquired with
          | .error e => (.error e, db)
          | .ok (profileId, db) =>
            if txAborts then (.error "Transaction aborted", db)
            else (.ok profileId, importTxBody data profileId sp.name now db)

/-! ### Derived predicates -/

/-- The spec's credential-pairing property of one profile row: `pinSalt` and
`pinHash` are both null or both present. -/
def pinPaired (p : Profile) : Prop :=
  p.pinSalt = none ↔ p.pinHash = none

/-- Every stored profile row satisfies the credential-pairing property. -/
def PinInvariant (db : Db) : Prop :=
  ∀ p ∈ db.profiles, pinPaired p

/-! ### Shared helper definitions for concrete evaluations -/

/-- A concrete stand-in for the PBKDF2 derivation, injective in the pin for a
fixed salt. -/
def exampleHash (pin salt : String) : String :=
  "H:" ++ pin ++ ":" ++ salt

/-- The freshly created empty database. -/
def emptyDb : Db :=
  { profiles := [], progress := [], quizResults := [], nextQuizId := 1 }

/-- The database obtained by creating profile "Ava" with pin "1234" (salt
"salt1", hash function `exampleHash`) in the empty database. -/
def pinDemoDb : Db :=
  { profiles := [{ profileId := "p1", name := "Ava", createdAt := "t0", updatedAt := "t0",
                   pinSalt := some "salt1", pinHash := some "H:1234:salt1" }],
    progress := [], quizResults := [], nextQuizId := 1 }

/-- Three quiz submissions on one quiz with percentages 60, 90, 75. -/
def bestDemoDb : Db :=
  { profiles := [], progress := [],
    quizResults :=
      [{ id := 1, profileId := "p1", quizId := "q1", score := 3, totalQuestions := 5,
         answers := [], completedAt := "t1", percentage := some 60 },
       { id := 2, profileId := "p1", quizId := "q1", score := 9, totalQuestions := 10,
         answers := [], completedAt := "t2", percentage := some 90 },
       { id := 3, profileId := "p1", quizId := "q1", score := 3, totalQuestions := 4,
         answers := [], completedAt := "t3", percentage := some 75 }],
    nextQuizId := 4 }

/-- A well-formed version-1 snapshot with profile name "Bob", one progress
entry and one quiz entry. -/
def demoSnap : Snapshot :=
  { version := 1, exportedAt := "tE",
    profile := some { profileId := "p0", name := "Bob", createdAt := "t0", updatedAt := "t0" },
    progress := [{ lessonId := "l1", completed := true, completedAt := some "t1" }],
    quizResults := [{ quizId := "q1", score := 9, totalQuestions := 10, answers := [],
                      completedAt := "t2" }] }

/-- A database with one no-PIN profile "Ava", two progress rows and one quiz
row, all owned by profile `p1`. -/
def roundTripDemoDb : Db :=
  { profiles := [{ profileId := "p1", name := "Ava", createdAt := "t0", updatedAt := "t0",
                   pinSalt := none, pinHash := none }],
    progress :=
      [{ profileId := "p1", lessonId := "l1", completed := true, completedAt := some "t1" },
       { profileId := "p1", lessonId := "l2", completed := false, completedAt := none }],
    quizResults :=
      [{ id := 1, profileId := "p1", quizId := "q1", score := 9, totalQuestions := 10,
         answers := [], completedAt := "t2", percentage := some 90 }],
    nextQuizId := 2 }

/-! ### Basic lemmas about the store primitives -/

theorem getProfile_mem {db : Db} {pid : String} {p : Profile}
    (h : getProfile db pid = some p) : p ∈ db.profiles := by
  exact List.mem_of_find?_eq_some h

theorem getProfile_profileId {db : Db} {pid : String} {p : Profile}
    (h : getProfile db pid = some p) : p.profileId = pid := by
  have := List.find?_some h
  simpa using this

theorem mem_putProfileRow {p q : Profile} {l : List Profile}
    (h : q ∈ putProfileRow p l) : q = p ∨ q ∈ l := by
  unfold putProfileRow at h
  by_cases hany : l.any (fun r => r.profileId == p.profileId) = true
  · rw [if_pos hany] at h
    rcases List.mem_map.mp h with ⟨r, hr, hrq⟩
    by_cases hk : r.profileId == p.profileId
    · left; rw [if_pos hk] at hrq; exact hrq.symm
    · right; rw [if_neg hk] at hrq; exact hrq ▸ hr
  · rw [if_neg hany] at h
    rcases List.mem_append.mp h with h | h
    · right; exact h
    · left; simpa using h

/-- After a `put`, looking up the written row's key finds exactly the written
row. -/
theorem find?_putProfileRow (p : Profile) (l : List Profile) :
    (putProfileRow p l).find? (fun q => q.profileId == p.profileId) = some p := by
  unfold putProfileRow
  by_cases hany : l.any (fun r => r.profileId == p.profileId) = true
  · rw [if_pos hany]
    induction l with
    | nil => simp at hany
    | cons a t ih =>
      rw [List.map_cons]
      by_cases hk : (a.profileId == p.profileId) = true
      · rw [if_pos hk]
        exact List.find?_cons_of_pos _ (by simp)
      · rw [if_neg hk,
          List.find?_cons_of_neg (p := fun q : Profile => q.profileId == p.profileId) _ hk]
        apply ih
        rcases List.any_eq_true.mp hany with ⟨r, hr, hrp⟩
        rcases List.mem_cons.mp hr with rfl | hr
        · exact absurd hrp hk
        · exact List.any_eq_true.mpr ⟨r, hr, hrp⟩
  · rw [if_neg hany]
    have hnone : l.find? (fun q => q.profileId == p.profileId) = none := by
      rw [List.find?_eq_none]
      intro x hx hpx
      exact hany (List.any_eq_true.mpr ⟨x, hx, hpx⟩)
    rw [List.find?_append, hnone]
    simp

theorem getProfile_after_put (db : Db) (p : Profile) :
    getProfile { db with profiles := putProfileRow p db.profiles } p.profileId = some p := by
  unfold getProfile
  exact find?_putProfileRow p db.profiles


/-- Inversion of a successful `createProfile`. -/
theorem createProfile_ok {hash : String → String → String}
    {profileId now salt name : String} {pin : Option String} {db : Db}
    {prof : Profile} {db' : Db}
    (h : createProfile hash profileId now salt name pin db = .ok (prof, db')) :
    jsTrim name ≠ ""
    ∧ prof.profileId = profileId ∧ prof.name = jsTrim name
    ∧ prof.createdAt = now ∧ prof.updatedAt = now
    ∧ ((pin = none ∨ pin = some "") → prof.pinSalt = none ∧ prof.pinHash = none)
    ∧ (∀ p, pin = some p → p ≠ "" →
        prof.pinSalt = some salt ∧ prof.pinHash = some (hash p salt))
    ∧ db' = { db with profiles := putProfileRow prof db.profiles } := by
  unfold createProfile at h
  by_cases hname : (jsTrim name == "") = true
  · rw [if_pos hname] at h
    exact absurd h (by simp)
  · rw [if_neg hname] at h
    have hname' : jsTrim name ≠ "" := by simpa using hname
    cases pin with
    | none =>
      simp only [Except.ok.injEq, Prod.mk.injEq] at h
      obtain ⟨hp, hd⟩ := h
      subst hp
      refine ⟨hname', rfl, rfl, rfl, rfl, fun _ => ⟨rfl, rfl⟩, ?_, hd.symm⟩
      intro q hq
      exact absurd hq (by simp)
    | some p =>
      by_cases hp : (p == "") = true
      · have hp' : p = "" := by simpa using hp
        simp only [hp, if_true, Except.ok.injEq, Prod.mk.injEq] at h
        obtain ⟨hprof, hd⟩ := h
        subst hprof
        exact ⟨hname', rfl, rfl, rfl, rfl, fun _ => ⟨rfl, rfl⟩,
          fun q hq hq' => absurd (by rw [← Option.some_inj.mp hq]; exact hp')
            hq', hd.symm⟩
      · have hp' : p ≠ "" := by simpa using hp
        simp only [hp, if_false, Except.ok.injEq, Prod.mk.injEq, Bool.false_eq_true] at h
        obtain ⟨hprof, hd⟩ := h
        subst hprof
        refine ⟨hname', rfl, rfl, rfl, rfl, ?_, ?_, hd.symm⟩
        · rintro (hc | hc)
          · cases hc
          · exact absurd (Option.some_inj.mp hc) hp'
        · rintro q hq -
          cases hq
          exact ⟨rfl, rfl⟩

/-- C10: `verifyProfilePin` on a profileId that does not exist returns
`false` for every pin attempt, rather than raising a not-found error: the
unknown-profile case is folded into the boolean result. -/
theorem verifyProfilePin_unknown_profile (hash : String → String → String) (db : Db)
    (profileId pinAttempt : String) (h : getProfile db profileId = none) :
    verifyProfilePin hash db profileId pinAttempt = false := by
  unfold verifyProfilePin
  rw [h]

theorem verifyProfilePin_unknown_profile_witness :
    getProfile emptyDb "nobody" = none
    ∧ verifyProfilePin exampleHash emptyDb "nobody" "1234" = false :=
  ⟨rfl, verifyProfilePin_unknown_profile exampleHash emptyDb "nobody" "1234" rfl⟩

/-- C3 (code bug): `createProfile` performs no PIN-length validation — with
the 2-character pin "12" it succeeds and persists a profile carrying a
derived `pinSalt`/`pinHash`, although the spec requires the store to refuse
pins shorter than 4 characters (as `setProfilePin` and the UI's
`minLength={4}` do). -/
theorem createProfile_short_pin_persists :
    createProfile exampleHash "p1" "t0" "salt1" "Ava" (some "12") emptyDb =
      .ok ({ profileId := "p1", name := "Ava", createdAt := "t0", updatedAt := "t0",
             pinSalt := some "salt1", pinHash := some "H:12:salt1" },
           { profiles := [{ profileId := "p1", name := "Ava", createdAt := "t0",
                            updatedAt := "t0", pinSalt := some "salt1",
                            pinHash := some "H:12:salt1" }],
             progress := [], quizResults := [], nextQuizId := 1 })
    ∧ ("12" : String).length < 4 := by
  constructor
  · rfl
  · decide

/-- C2: for a profile created with a valid name and a pin of length ≥ 4,
`verifyPin` with the same pin returns true; with any pin whose derived hash
differs (which, for the collision-free PBKDF2 derivation, is every
`wrongPin ≠ pin`) it returns false; and for any stored profile with no PIN
set, `verifyPin` returns true for every attempt.  The hypotheses `salt ≠ ""`
and `hash pin salt ≠ ""` record that base64 salts and 256-bit derived hashes
are never empty strings. -/
theorem createProfile_verifyPin_correct (hash : String → String → String)
    (profileId now salt name pin : String) (db : Db) (prof : Profile) (db' : Db)
    (hlen : 4 ≤ pin.length) (hsalt : salt ≠ "") (hhash : hash pin salt ≠ "")
    (hcreate : createProfile hash profileId now salt name (some pin) db = .ok (prof, db')) :
    verifyProfilePin hash db' profileId pin = true
    ∧ (∀ wrong : String, hash wrong salt ≠ hash pin salt →
        verifyProfilePin hash db' profileId wrong = false)
    ∧ (∀ (db2 : Db) (pid2 attempt : String) (p : Profile),
        getProfile db2 pid2 = some p → p.pinHash = none →
        verifyProfilePin hash db2 pid2 attempt = true) := by
  have hpin : pin ≠ "" := by
    intro hp
    rw [hp] at hlen
    simp at hlen
  obtain ⟨-, hpid, -, -, -, -, hset, hdb'⟩ := createProfile_ok hcreate
  obtain ⟨hps, hph⟩ := hset pin rfl hpin
  have hget : getProfile db' profileId = some prof := by
    rw [hdb', ← hpid]
    exact getProfile_after_put db prof
  refine ⟨?_, ?_, ?_⟩
  · unfold verifyProfilePin
    rw [hget]
    simp [optTruthy, hps, hph, hhash, hsalt]
  · intro wrong hw
    unfold verifyProfilePin
    rw [hget]
    simp only [optTruthy, hps, hph, Option.getD_some]
    rw [if_neg (by simp [hhash, hsalt])]
    simpa using hw
  · intro db2 pid2 attempt p hget2 hnone
    unfold verifyProfilePin
    rw [hget2]
    simp [optTruthy, hnone]

theorem createProfile_verifyPin_correct_witness :
    4 ≤ ("1234" : String).length
    ∧ verifyProfilePin exampleHash pinDemoDb "p1" "1234" = true
    ∧ verifyProfilePin exampleHash pinDemoDb "p1" "0000" = false := by
  have h := createProfile_verifyPin_correct exampleHash "p1" "t0" "salt1" "Ava" "1234"
    emptyDb
    ({ profileId := "p1", name := "Ava", createdAt := "t0", updatedAt := "t0",
       pinSalt := some "salt1", pinHash := some "H:1234:salt1" })
    pinDemoDb (by decide) (by decide) (by decide) (by decide)
  exact ⟨by decide, h.1, h.2.1 "0000" (by decide)⟩

/-- The `profiles` store after the import write batch. -/
theorem importTxBody_profiles (data : Snapshot) (pid name now : String) (db : Db) :
    (importTxBody data pid name now db).profiles =
      match getProfile db pid with
      | none => db.profiles
      | some profile =>
        putProfileRow { profile with name := name, updatedAt := now } db.profiles := rfl

/-- The `progress` store after the import write batch. -/
theorem importTxBody_progress (data : Snapshot) (pid name now : String) (db : Db) :
    (importTxBody data pid name now db).progress =
      data.progress.foldl
        (fun l p => if p.lessonId == "" then l
          else putProgressRow (importProgressRow pid p) l)
        db.progress := rfl

/-- The `quizResults` store after the import write batch. -/
theorem importTxBody_quizResults (data : Snapshot) (pid name now : String) (db : Db) :
    (importTxBody data pid name now db).quizResults =
      (data.quizResults.foldl
        (fun (acc : List QuizRow × Nat) q =>
          if q.quizId == "" then acc
          else (acc.1 ++ [importQuizRow pid now acc.2 q], acc.2 + 1))
        (db.quizResults, db.nextQuizId)).1 := rfl

theorem pinInvariant_put {db : Db} {p : Profile} (hdb : PinInvariant db) (hp : pinPaired p) :
    PinInvariant { db with profiles := putProfileRow p db.profiles } := by
  intro q hq
  rcases mem_putProfileRow hq with rfl | hq
  · exact hp
  · exact hdb q hq

theorem createProfile_pinInvariant {hash : String → String → String}
    {profileId now salt name : String} {pin : Option String} {db : Db}
    {prof : Profile} {db' : Db} (hdb : PinInvariant db)
    (h : createProfile hash profileId now salt name pin db = .ok (prof, db')) :
    PinInvariant db' := by
  obtain ⟨-, -, -, -, -, hnone, hsome, hdb'⟩ := createProfile_ok h
  have hp : pinPaired prof := by
    cases pin with
    | none =>
      obtain ⟨h1, h2⟩ := hnone (Or.inl rfl)
      simp [pinPaired, h1, h2]
    | some p =>
      by_cases hps : p = ""
      · obtain ⟨h1, h2⟩ := hnone (Or.inr (by rw [hps]))
        simp [pinPaired, h1, h2]
      · obtain ⟨h1, h2⟩ := hsome p rfl hps
        simp [pinPaired, h1, h2]
  rw [hdb']
  exact pinInvariant_put hdb hp

theorem renameProfile_pinInvariant {profileId name now : String} {db : Db}
    {prof : Profile} {db' : Db} (hdb : PinInvariant db)
    (h : renameProfile profileId name now db = .ok (prof, db')) :
    PinInvariant db' := by
  unfold renameProfile at h
  by_cases hname : (jsTrim name == "") = true
  · rw [if_pos hname] at h
    exact absurd h (by simp)
  · rw [if_neg hname] at h
    cases hget : getProfile db profileId with
    | none => rw [hget] at h; exact absurd h (by simp)
    | some p0 =>
      rw [hget] at h
      simp only [Except.ok.injEq, Prod.mk.injEq] at h
      obtain ⟨hprof, hd⟩ := h
      rw [← hd]
      apply pinInvariant_put hdb
      subst hprof
      exact hdb p0 (getProfile_mem hget)

theorem setProfilePin_pinInvariant {hash : String → String → String}
    {profileId pin now salt : String} {db : Db} {prof : Profile} {db' : Db}
    (hdb : PinInvariant db)
    (h : setProfilePin hash profileId pin now salt db = .ok (prof, db')) :
    PinInvariant db' := by
  unfold setProfilePin at h
  split at h
  · exact absurd h (by simp)
  · cases hget : getProfile db profileId with
    | none => rw [hget] at h; exact absurd h (by simp)
    | some p0 =>
      rw [hget] at h
      simp only [Except.ok.injEq, Prod.mk.injEq] at h
      obtain ⟨hprof, hd⟩ := h
      rw [← hd]
      apply pinInvariant_put hdb
      subst hprof
      simp [pinPaired]

theorem clearProfilePin_pinInvariant {profileId now : String} {db : Db}
    {prof : Profile} {db' : Db} (hdb : PinInvariant db)
    (h : clearProfilePin profileId now db = .ok (prof, db')) :
    PinInvariant db' := by
  unfold clearProfilePin at h
  cases hget : getProfile db profileId with
  | none => rw [hget] at h; exact absurd h (by simp)
  | some p0 =>
    rw [hget] at h
    simp only [Except.ok.injEq, Prod.mk.injEq] at h
    obtain ⟨hprof, hd⟩ := h
    rw [← hd]
    apply pinInvariant_put hdb
    subst hprof
    simp [pinPaired]

theorem importTxBody_pinInvariant {db : Db} (hdb : PinInvariant db)
    (data : Snapshot) (pid name now : String) :
    PinInvariant (importTxBody data pid name now db) := by
  intro p hp
  rw [importTxBody_profiles] at hp
  revert hp
  cases hget : getProfile db pid with
  | none => intro hp; exact hdb p hp
  | some p0 =>
    intro hp
    rcases mem_putProfileRow hp with rfl | hp
    · exact hdb p0 (getProfile_mem hget)
    · exact hdb p hp

theorem importProfileData_pinInvariant (hash : String → String → String)
    (data : Option Snapshot) (overwriteProfileId : Option String)
    (newProfileId now salt : String) (txAborts : Bool) (db : Db)
    (hdb : PinInvariant db) :
    PinInvariant (importProfileData hash data overwriteProfileId newProfileId now salt
      txAborts db).2 := by
  unfold importProfileData
  cases data with
  | none => exact hdb
  | some d =>
    simp only []
    by_cases hv : (d.version != 1) = true
    · rw [if_pos hv]
      exact hdb
    · rw [if_neg hv]
      cases hpr : d.profile with
      | none => exact hdb
      | some sp =>
        simp only []
        by_cases hn : (sp.name == "") = true
        · rw [if_pos hn]
          exact hdb
        · rw [if_neg hn]
          cases overwriteProfileId with
          | some opid =>
            simp only []
            cases hg : getProfile db opid with
            | none => exact hdb
            | some p0 =>
              cases txAborts with
              | true => exact hdb
              | false => exact importTxBody_pinInvariant hdb d opid sp.name now
          | none =>
            simp only []
            cases hc : createProfile hash newProfileId now salt sp.name none db with
            | error e => exact hdb
            | ok pr =>
              obtain ⟨created, db1⟩ := pr
              have hdb1 : PinInvariant db1 := createProfile_pinInvariant hdb hc
              cases txAborts with
              | true => exact hdb1
              | false =>
                exact importTxBody_pinInvariant hdb1 d created.profileId sp.name now

/-- C6: every operation that writes a profile row — create, rename, setPin,
clearPin, import — preserves the invariant that `pinSalt` and `pinHash` are
both null or both non-null; no reachable profile state has exactly one of
the two set. -/
theorem pin_pairing_invariant (hash : String → String → String) (db : Db)
    (hdb : PinInvariant db) :
    (∀ profileId now salt name pin prof db',
        createProfile hash profileId now salt name pin db = .ok (prof, db') →
        PinInvariant db')
    ∧ (∀ profileId name now prof db',
        renameProfile profileId name now db = .ok (prof, db') → PinInvariant db')
    ∧ (∀ profileId pin now salt prof db',
        setProfilePin hash profileId pin now salt db = .ok (prof, db') → PinInvariant db')
    ∧ (∀ profileId now prof db',
        clearProfilePin profileId now db = .ok (prof, db') → PinInvariant db')
    ∧ (∀ data overwriteProfileId newProfileId now salt txAborts,
        PinInvariant (importProfileData hash data overwriteProfileId newProfileId now salt
          txAborts db).2) :=
  ⟨fun _ _ _ _ _ _ _ h => createProfile_pinInvariant hdb h,
   fun _ _ _ _ _ h => renameProfile_pinInvariant hdb h,
   fun _ _ _ _ _ _ h => setProfilePin_pinInvariant hdb h,
   fun _ _ _ _ h => clearProfilePin_pinInvariant hdb h,
   fun data o n now s t => importProfileData_pinInvariant hash data o n now s t db hdb⟩

theorem pin_pairing_invariant_witness : PinInvariant pinDemoDb :=
  (pin_pairing_invariant exampleHash emptyDb (fun p hp => absurd hp (by simp [emptyDb]))).1
    "p1" "t0" "salt1" "Ava" (some "1234")
    ({ profileId := "p1", name := "Ava", createdAt := "t0", updatedAt := "t0",
       pinSalt := some "salt1", pinHash := some "H:1234:salt1" })
    pinDemoDb (by decide)


/-- After a `put` on the `progress` store, the rows carrying the written
row's composite key are exactly the written row, provided the store held at
most one row with that key beforehand (the keyPath uniqueness invariant). -/
theorem putProgressRow_filter {r : ProgressRow} {l : List ProgressRow}
    (h : l.countP (fun s => progKey s == progKey r) ≤ 1) :
    (putProgressRow r l).filter (fun s => progKey s == progKey r) = [r] := by
  unfold putProgressRow
  by_cases hany : l.any (fun s => progKey s == progKey r) = true
  · rw [if_pos hany]
    induction l with
    | nil => simp at hany
    | cons a t ih =>
      rw [List.map_cons]
      by_cases hk : (progKey a == progKey r) = true
      · rw [if_pos hk, List.filter_cons_of_pos (by simp)]
        have ht0 : t.countP (fun s => progKey s == progKey r) = 0 := by
          rw [List.countP_cons] at h
          simp only [hk, if_true] at h
          omega
        have htall := List.countP_eq_zero.mp ht0
        have hfil : (t.map (fun s => if progKey s == progKey r then r else s)).filter
            (fun s => progKey s == progKey r) = [] := by
          rw [List.filter_eq_nil_iff]
          intro b hb
          rcases List.mem_map.mp hb with ⟨s, hs, rfl⟩
          rw [if_neg (htall s hs)]
          exact htall s hs
        rw [hfil]
      · rw [if_neg hk,
          List.filter_cons_of_neg (p := fun s : ProgressRow => progKey s == progKey r) hk]
        have hany' : t.any (fun s => progKey s == progKey r) = true := by
          rcases List.any_eq_true.mp hany with ⟨s, hs, hsp⟩
          rcases List.mem_cons.mp hs with rfl | hs
          · exact absurd hsp hk
          · exact List.any_eq_true.mpr ⟨s, hs, hsp⟩
        have hcount' : t.countP (fun s => progKey s == progKey r) ≤ 1 := by
          rw [List.countP_cons] at h
          omega
        exact ih hcount' hany'
  · rw [if_neg hany, List.filter_append]
    have hl : l.filter (fun s => progKey s == progKey r) = [] := by
      rw [List.filter_eq_nil_iff]
      intro s hs hp
      exact hany (List.any_eq_true.mpr ⟨s, hs, hp⟩)
    rw [hl]
    simp

/-- C9: progress upserts are idempotent on the composite key — for a store
holding at most one row per `(profileId, lessonId)` key, `markLessonComplete`
and `markLessonIncomplete` each leave exactly one progress row for that key,
carrying the latest write's record, and repeating either call never
duplicates rows. -/
theorem markLesson_idempotent (db : Db) (profileId lessonId now now1 now2 : String)
    (h : db.progress.countP (fun s => progKey s == (profileId, lessonId)) ≤ 1) :
    (markLessonComplete db profileId lessonId now).progress.filter
        (fun s => progKey s == (profileId, lessonId)) =
      [{ profileId := profileId, lessonId := lessonId, completed := true,
         completedAt := some now }]
    ∧ (markLessonIncomplete db profileId lessonId).progress.filter
        (fun s => progKey s == (profileId, lessonId)) =
      [{ profileId := profileId, lessonId := lessonId, completed := false,
         completedAt := none }]
    ∧ (markLessonComplete (markLessonComplete db profileId lessonId now1)
          profileId lessonId now2).progress.filter
        (fun s => progKey s == (profileId, lessonId)) =
      [{ profileId := profileId, lessonId := lessonId, completed := true,
         completedAt := some now2 }]
    ∧ (markLessonIncomplete (markLessonIncomplete db profileId lessonId)
          profileId lessonId).progress.filter
        (fun s => progKey s == (profileId, lessonId)) =
      [{ profileId := profileId, lessonId := lessonId, completed := false,
         completedAt := none }] := by
  have hc : ∀ now', (markLessonComplete db profileId lessonId now').progress.filter
      (fun s => progKey s == (profileId, lessonId)) =
      [{ profileId := profileId, lessonId := lessonId, completed := true,
         completedAt := some now' }] := fun now' =>
    putProgressRow_filter
      (r := { profileId := profileId, lessonId := lessonId, completed := true,
              completedAt := some now' }) h
  have hi : (markLessonIncomplete db profileId lessonId).progress.filter
      (fun s => progKey s == (profileId, lessonId)) =
      [{ profileId := profileId, lessonId := lessonId, completed := false,
         completedAt := none }] :=
    putProgressRow_filter
      (r := { profileId := profileId, lessonId := lessonId, completed := false,
              completedAt := none }) h
  have hone : (markLessonComplete db profileId lessonId now1).progress.countP
      (fun s => progKey s == (profileId, lessonId)) ≤ 1 := by
    rw [List.countP_eq_length_filter, hc now1]
    simp
  have hione : (markLessonIncomplete db profileId lessonId).progress.countP
      (fun s => progKey s == (profileId, lessonId)) ≤ 1 := by
    rw [List.countP_eq_length_filter, hi]
    simp
  refine ⟨hc now, hi, ?_, ?_⟩
  · exact putProgressRow_filter
      (r := { profileId := profileId, lessonId := lessonId, completed := true,
              completedAt := some now2 }) hone
  · exact putProgressRow_filter
      (r := { profileId := profileId, lessonId := lessonId, completed := false,
              completedAt := none }) hione

theorem markLesson_idempotent_witness :
    emptyDb.progress.countP (fun s => progKey s == ("p1", "l1")) ≤ 1
    ∧ (markLessonComplete (markLessonComplete emptyDb "p1" "l1" "t1") "p1" "l1" "t2").progress.filter
        (fun s => progKey s == ("p1", "l1")) =
      [{ profileId := "p1", lessonId := "l1", completed := true, completedAt := some "t2" }] :=
  ⟨by decide,
   (markLesson_idempotent emptyDb "p1" "l1" "t0" "t1" "t2" (by decide)).2.2.1⟩

/-- C7 counterexample: with score 2 out of 1 total question (integer score ≥ 0,
integer totalQuestions > 0, as the claim's hypotheses allow), the stored
percentage is 200, outside 0–100 — the code never clamps
`Math.round((score / totalQuestions) * 100)`. -/
theorem submitQuizResult_percentage_not_bounded :
    (submitQuizResult emptyDb "p1" "q1" 2 1 [] "t1").1.2.2 = 200
    ∧ ¬ ((submitQuizResult emptyDb "p1" "q1" 2 1 [] "t1").1.2.2 ≤ 100) := by
  constructor <;> decide

/-- C7 (amended): for integer score ≥ 0 and integer totalQuestions > 0,
`submitQuizResult` appends one new row whose stored percentage equals
round-half-up of `100 * score / totalQuestions` (characterised by
`2·t·p ≤ 200·s + t < 2·t·(p+1)`), and that percentage lies in 0–100 whenever
`score ≤ totalQuestions`; without that extra bound the percentage can exceed
100. -/
theorem submitQuizResult_percentage (db : Db) (profileId quizId : String)
    (score totalQuestions : Nat) (answers : List (Nat × Nat)) (now : String)
    (h : 0 < totalQuestions) :
    (submitQuizResult db profileId quizId score totalQuestions answers now).2.quizResults =
      db.quizResults ++
        [{ id := db.nextQuizId, profileId := profileId, quizId := quizId, score := score,
           totalQuestions := totalQuestions, answers := answers, completedAt := now,
           percentage := some
             (submitQuizResult db profileId quizId score totalQuestions answers now).1.2.2 }]
    ∧ 2 * totalQuestions *
        (submitQuizResult db profileId quizId score totalQuestions answers now).1.2.2 ≤
        200 * score + totalQuestions
    ∧ 200 * score + totalQuestions < 2 * totalQuestions *
        ((submitQuizResult db profileId quizId score totalQuestions answers now).1.2.2 + 1)
    ∧ (score ≤ totalQuestions →
        (submitQuizResult db profileId quizId score totalQuestions answers now).1.2.2 ≤ 100) := by
  have hp : (submitQuizResult db profileId quizId score totalQuestions answers now).1.2.2 =
      (200 * score + totalQuestions) / (2 * totalQuestions) := rfl
  have hdm := Nat.div_add_mod (200 * score + totalQuestions) (2 * totalQuestions)
  have hmod : (200 * score + totalQuestions) % (2 * totalQuestions) < 2 * totalQuestions :=
    Nat.mod_lt _ (by omega)
  obtain ⟨A, hA⟩ : ∃ A, 2 * totalQuestions *
      ((200 * score + totalQuestions) / (2 * totalQuestions)) = A := ⟨_, rfl⟩
  refine ⟨rfl, ?_, ?_, ?_⟩
  · rw [hp, hA]
    rw [hA] at hdm
    omega
  · rw [hp, Nat.mul_add, Nat.mul_one, hA]
    rw [hA] at hdm
    omega
  · intro hst
    have h1 : 200 * score + totalQuestions ≤ 201 * totalQuestions := by omega
    have h2 : (submitQuizResult db profileId quizId score totalQuestions answers now).1.2.2 ≤
        (201 * totalQuestions) / (2 * totalQuestions) := by
      rw [hp]
      exact Nat.div_le_div_right h1
    have h3 : (201 * totalQuestions) / (2 * totalQuestions) < 101 := by
      rw [Nat.div_lt_iff_lt_mul (by omega)]
      omega
    omega

theorem submitQuizResult_percentage_witness :
    0 < 10 ∧
      (submitQuizResult emptyDb "p1" "q1" 9 10 [] "t1").1.2.2 ≤ 100 :=
  ⟨by decide,
   (submitQuizResult_percentage emptyDb "p1" "q1" 9 10 [] "t1" (by decide)).2.2.2 (by decide)⟩

/-- Folding single-key deletions over a list of keys filters out exactly the
rows whose key occurs among the deleted keys (the net effect of a cursor
walk that deletes each visited row by primary key). -/
theorem foldl_filter_key {α κ : Type} [BEq κ] [LawfulBEq κ] (key : α → κ)
    (ks : List κ) (l : List α) :
    ks.foldl (fun acc k => acc.filter (fun r => !(key r == k))) l
      = l.filter (fun r => !(ks.any (fun k => key r == k))) := by
  induction ks generalizing l with
  | nil => simp
  | cons k t ih =>
    rw [List.foldl_cons, ih, List.filter_filter]
    apply List.filter_congr
    intro a ha
    simp [Bool.and_comm]

/-- C1: `deleteProfile` is atomic and complete — it runs as one read-write
transaction over profiles, progress and quizResults; a failure at any step
aborts the transaction leaving the database exactly as before (all prior
rows intact), and a committed run leaves `getProfile` not-found and no
progress or quizResults row carrying the profileId. -/
theorem deleteProfile_atomic (db : Db) (profileId : String) :
    (∀ k, deleteProfile db profileId (some k) = db)
    ∧ getProfile (deleteProfile db profileId none) profileId = none
    ∧ (deleteProfile db profileId none).progress.all
        (fun r => !(r.profileId == profileId)) = true
    ∧ (deleteProfile db profileId none).quizResults.all
        (fun r => !(r.profileId == profileId)) = true := by
  refine ⟨fun k => rfl, ?_, ?_, ?_⟩
  · show (db.profiles.filter (fun p => !(p.profileId == profileId))).find?
        (fun p => p.profileId == profileId) = none
    rw [List.find?_eq_none]
    intro x hx
    have hn := (List.mem_filter.mp hx).2
    simp only [Bool.not_eq_true'] at hn
    simp [hn]
  · show ((((db.progress.filter (fun r => r.profileId == profileId)).map progKey).foldl
        (fun l k => l.filter (fun r => !(progKey r == k))) db.progress).all
        (fun r => !(r.profileId == profileId))) = true
    rw [foldl_filter_key progKey, List.all_eq_true]
    intro r hr
    obtain ⟨hrin, hna⟩ := List.mem_filter.mp hr
    cases hb : (r.profileId == profileId) with
    | false => simp
    | true =>
      exfalso
      have hrf : r ∈ db.progress.filter (fun s => s.profileId == profileId) :=
        List.mem_filter.mpr ⟨hrin, hb⟩
      have hks : progKey r ∈ (db.progress.filter
          (fun s => s.profileId == profileId)).map progKey :=
        List.mem_map_of_mem _ hrf
      have hany : ((db.progress.filter (fun s => s.profileId == profileId)).map
          progKey).any (fun k => progKey r == k) = true :=
        List.any_eq_true.mpr ⟨progKey r, hks, by simp⟩
      rw [hany] at hna
      simp at hna
  · show ((((db.quizResults.filter (fun r => r.profileId == profileId)).map
        (fun r => r.id)).foldl
        (fun l i => l.filter (fun r => !(r.id == i))) db.quizResults).all
        (fun r => !(r.profileId == profileId))) = true
    rw [foldl_filter_key (fun r : QuizRow => r.id), List.all_eq_true]
    intro r hr
    obtain ⟨hrin, hna⟩ := List.mem_filter.mp hr
    cases hb : (r.profileId == profileId) with
    | false => simp
    | true =>
      exfalso
      have hrf : r ∈ db.quizResults.filter (fun s => s.profileId == profileId) :=
        List.mem_filter.mpr ⟨hrin, hb⟩
      have hks : r.id ∈ (db.quizResults.filter
          (fun s => s.profileId == profileId)).map (fun s => s.id) :=
        List.mem_map_of_mem _ hrf
      have hany : ((db.quizResults.filter (fun s => s.profileId == profileId)).map
          (fun s => s.id)).any (fun i => r.id == i) = true :=
        List.any_eq_true.mpr ⟨r.id, hks, by simp⟩
      rw [hany] at hna
      simp at hna

theorem le_foldl_max (l : List Nat) (a : Nat) : a ≤ l.foldl max a := by
  induction l generalizing a with
  | nil => exact Nat.le_refl a
  | cons b t ih => exact Nat.le_trans (Nat.le_max_left a b) (ih (max a b))

theorem foldl_max_le {l : List Nat} {x : Nat} (hx : x ∈ l) (a : Nat) :
    x ≤ l.foldl max a := by
  induction l generalizing a with
  | nil => cases hx
  | cons b t ih =>
    rcases List.mem_cons.mp hx with rfl | hx'
    · exact Nat.le_trans (Nat.le_max_right a x) (le_foldl_max t (max a x))
    · exact ih hx' (max a b)

theorem foldl_max_mem (l : List Nat) (a : Nat) :
    l.foldl max a = a ∨ l.foldl max a ∈ l := by
  induction l generalizing a with
  | nil => left; rfl
  | cons b t ih =>
    rw [List.foldl_cons]
    rcases ih (max a b) with h | h
    · rw [h]
      rcases max_choice a b with hm | hm
      · left; exact hm
      · right; rw [hm]; exact List.mem_cons_self b t
    · right
      exact List.mem_cons_of_mem b h

theorem foldl_max_attain {l : List Nat} (hl : l ≠ []) : l.foldl max 0 ∈ l := by
  rcases foldl_max_mem l 0 with h | h
  · cases l with
    | nil => exact absurd rfl hl
    | cons b t =>
      have hb : b ≤ (b :: t).foldl max 0 := foldl_max_le (List.mem_cons_self b t) 0
      rw [h] at hb
      have hb0 : b = 0 := Nat.le_zero.mp hb
      rw [h, ← hb0]
      exact List.mem_cons_self b t
  · exact h


/-- Pointwise evaluation of one `getBestQuizScores` loop iteration. -/
theorem bestStep_apply (m : String → Option BestEntry) (r : QuizRow) (q : String) :
    bestStep m r q =
      if q == r.quizId then
        match m r.quizId with
        | none => some (toBestEntry r)
        | some prev => if effPct r > prev.percentage then some (toBestEntry r) else m q
      else m q := by
  unfold bestStep
  cases hM : m r.quizId with
  | none =>
    by_cases hq : (q == r.quizId) = true <;> simp [hq]
  | some prev =>
    by_cases hcmp : effPct r > prev.percentage
    · by_cases hq : (q == r.quizId) = true <;> simp [hcmp, hq]
    · by_cases hq : (q == r.quizId) = true <;> simp [hcmp, hq]

/-- The single left-to-right reduction of `getBestQuizScores` computes, for
each quizId, the first row attaining the maximum effective percentage among
the rows seen for that quizId (strict `>` comparison: first-seen wins exact
ties). -/
theorem bestFold_eq (rows : List QuizRow) (q : String) :
    (rows.foldl bestStep (fun _ => none)) q =
      ((rows.filter (fun r => r.quizId == q)).find?
          (fun r => effPct r ==
            ((rows.filter (fun r => r.quizId == q)).map effPct).foldl max 0)).map
        toBestEntry := by
  induction rows using List.reverseRecOn with
  | nil => rfl
  | append_singleton l r ih =>
    rw [List.foldl_append, List.foldl_cons, List.foldl_nil, bestStep_apply]
    by_cases hq : (q == r.quizId) = true
    · rw [if_pos hq]
      have hqe : r.quizId = q := (beq_iff_eq.mp hq).symm
      subst hqe
      have hfilter : (l ++ [r]).filter (fun s => s.quizId == r.quizId) =
          l.filter (fun s => s.quizId == r.quizId) ++ [r] := by
        rw [List.filter_append]
        simp
      rw [hfilter]
      cases hM : (l.foldl bestStep (fun _ => none)) r.quizId with
      | none =>
        rw [hM] at ih
        have hfind : (l.filter (fun s => s.quizId == r.quizId)).find?
            (fun s => effPct s ==
              ((l.filter (fun s => s.quizId == r.quizId)).map effPct).foldl max 0) = none :=
          Option.map_eq_none'.mp ih.symm
        have hnil : l.filter (fun s => s.quizId == r.quizId) = [] := by
          by_contra hne
          have hmapne : (l.filter (fun s => s.quizId == r.quizId)).map effPct ≠ [] := by
            intro hmn
            exact hne (List.map_eq_nil_iff.mp hmn)
          have hmem := foldl_max_attain hmapne
          rcases List.mem_map.mp hmem with ⟨x, hx, hxe⟩
          have hsome : ((l.filter (fun s => s.quizId == r.quizId)).find?
              (fun s => effPct s ==
                ((l.filter (fun s => s.quizId == r.quizId)).map effPct).foldl max 0)).isSome :=
            List.find?_isSome.mpr ⟨x, hx, by simp [hxe]⟩
          rw [hfind] at hsome
          simp at hsome
        rw [hnil]
        simp
      | some prev =>
        simp only []
        rw [hM] at ih
        obtain ⟨r0, hr0, hr0e⟩ := Option.map_eq_some'.mp ih.symm
        have hr0pct : (effPct r0 ==
            ((l.filter (fun s => s.quizId == r.quizId)).map effPct).foldl max 0) = true :=
          List.find?_some (p := fun s : QuizRow => effPct s ==
            ((l.filter (fun t => t.quizId == r.quizId)).map effPct).foldl max 0) hr0
        have hr0pct' : effPct r0 =
            ((l.filter (fun s => s.quizId == r.quizId)).map effPct).foldl max 0 :=
          beq_iff_eq.mp hr0pct
        have hprevpct : prev.percentage = effPct r0 := by
          rw [← hr0e]
          rfl
        by_cases hcmp : effPct r > prev.percentage
        · rw [if_pos hcmp]
          have hmax : (((l.filter (fun s => s.quizId == r.quizId)) ++ [r]).map
              effPct).foldl max 0 = effPct r := by
            rw [List.map_append, List.foldl_append]
            show max (((l.filter (fun s => s.quizId == r.quizId)).map effPct).foldl max 0)
              (effPct r) = effPct r
            rw [← hr0pct', ← hprevpct]
            exact Nat.max_eq_right (Nat.le_of_lt hcmp)
          rw [hmax, List.find?_append]
          have hnone : (l.filter (fun s => s.quizId == r.quizId)).find?
              (fun s => effPct s == effPct r) = none := by
            rw [List.find?_eq_none]
            intro x hx hpx
            have hxle : effPct x ≤ prev.percentage := by
              rw [hprevpct, hr0pct']
              exact foldl_max_le (List.mem_map_of_mem effPct hx) 0
            have hxe : effPct x = effPct r := beq_iff_eq.mp hpx
            omega
          rw [hnone]
          simp
        · rw [if_neg hcmp]
          have hle : effPct r ≤ prev.percentage := Nat.le_of_not_lt hcmp
          have hmax : (((l.filter (fun s => s.quizId == r.quizId)) ++ [r]).map
              effPct).foldl max 0 =
              ((l.filter (fun s => s.quizId == r.quizId)).map effPct).foldl max 0 := by
            rw [List.map_append, List.foldl_append]
            show max (((l.filter (fun s => s.quizId == r.quizId)).map effPct).foldl max 0)
              (effPct r) =
              ((l.filter (fun s => s.quizId == r.quizId)).map effPct).foldl max 0
            rw [← hr0pct', ← hprevpct]
            exact Nat.max_eq_left hle
          rw [hmax, List.find?_append, hr0]
          simp [hr0e]
    · rw [if_neg hq]
      have hqf : (q == r.quizId) = false := by simpa using hq
      have hq' : (r.quizId == q) = false := by
        rw [beq_eq_false_iff_ne] at hqf ⊢
        exact fun h => hqf h.symm
      have hfilter : (l ++ [r]).filter (fun s => s.quizId == q) =
          l.filter (fun s => s.quizId == q) := by
        rw [List.filter_append]
        simp [hq']
      rw [hfilter, ih]

/-- C8: `getBestQuizScores` maps each quizId occurring among the profile's
rows to the row attaining the maximum effective percentage among the rows
sharing that quizId, with the first-seen row (in store iteration order)
winning exact ties; in particular, for submissions with percentages
[60, 90, 75] on one quizId it reports 90. -/
theorem getBestQuizScores_spec (db : Db) (profileId q : String) :
    getBestQuizScores db profileId q =
      (((db.quizResults.filter (fun r => r.profileId == profileId)).filter
          (fun r => r.quizId == q)).find?
        (fun r => effPct r ==
          (((db.quizResults.filter (fun r => r.profileId == profileId)).filter
              (fun r => r.quizId == q)).map effPct).foldl max 0)).map toBestEntry
    ∧ getBestQuizScores bestDemoDb "p1" "q1" =
        some { score := 9, totalQuestions := 10, percentage := 90, completedAt := "t2" } :=
  ⟨bestFold_eq _ q, by decide⟩

/-- A `put` of a profile whose key is not yet in the store appends it. -/
theorem putProfileRow_of_fresh {l : List Profile} {p : Profile}
    (h : l.find? (fun q => q.profileId == p.profileId) = none) :
    putProfileRow p l = l ++ [p] := by
  unfold putProfileRow
  rw [if_neg]
  intro hany
  rcases List.any_eq_true.mp hany with ⟨x, hx, hpx⟩
  exact List.find?_eq_none.mp h x hx hpx

/-- On a transaction abort, the visible database is either completely
unchanged (early validation/not-found error, or overwrite import) or — for
a brand-new-profile import — changed only by the profile row `createProfile`
put before the transaction started. -/
theorem importProfileData_abort_state (hash : String → String → String)
    (data : Option Snapshot) (overwriteProfileId : Option String)
    (newProfileId now salt : String) (db : Db) :
    (importProfileData hash data overwriteProfileId newProfileId now salt true db).2 = db
    ∨ (overwriteProfileId = none
        ∧ ∃ prof,
            prof.profileId = newProfileId
            ∧ (importProfileData hash data overwriteProfileId newProfileId now salt true db).2 =
              { db with profiles := putProfileRow prof db.profiles }) := by
  unfold importProfileData
  cases data with
  | none => left; rfl
  | some d =>
    simp only []
    by_cases hv : (d.version != 1) = true
    · rw [if_pos hv]
      left; rfl
    · rw [if_neg hv]
      cases hpr : d.profile with
      | none => left; rfl
      | some sp =>
        simp only []
        by_cases hn : (sp.name == "") = true
        · rw [if_pos hn]
          left; rfl
        · rw [if_neg hn]
          cases overwriteProfileId with
          | some opid =>
            simp only []
            cases hg : getProfile db opid with
            | none => left; rfl
            | some p0 => left; rfl
          | none =>
            simp only []
            cases hc : createProfile hash newProfileId now salt sp.name none db with
            | error e => left; rfl
            | ok pr =>
              obtain ⟨created, db1⟩ := pr
              obtain ⟨-, hpid, -, -, -, -, -, hdb1⟩ := createProfile_ok hc
              right
              exact ⟨by trivial, created, hpid, hdb1⟩

/-- C4 counterexample: importing a valid version-1 snapshot as a brand-new
profile with the write-batch transaction aborting leaves the newly created
profile visible — `createProfile` runs *before* the transaction starts, so
the abort does not roll it back, contradicting "no newly created profile
visible afterward". -/
theorem importProfileData_abort_leaves_created_profile :
    (importProfileData exampleHash (some demoSnap) none "p9" "tI" "s9" true pinDemoDb).1 =
      .error "Transaction aborted"
    ∧ (importProfileData exampleHash (some demoSnap) none "p9" "tI" "s9" true pinDemoDb).2 ≠
      pinDemoDb
    ∧ getProfile
        (importProfileData exampleHash (some demoSnap) none "p9" "tI" "s9" true pinDemoDb).2
        "p9" ≠ none := by
  refine ⟨by decide, by decide, by decide⟩

/-- C4 (amended): a version mismatch or missing profile name fails with the
store completely unchanged; the write batch runs inside a single transaction
spanning all three collections, and on abort the progress and quizResults
stores and every prior profile row are intact — an overwrite-target import
leaves the whole database unchanged — but when no overwriteProfileId is
given, the brand-new profile created before the transaction remains visible
after the abort. -/
theorem importProfileData_failure_semantics (hash : String → String → String)
    (data : Option Snapshot) (overwriteProfileId : Option String)
    (newProfileId now salt : String) (txAborts : Bool) (db : Db) :
    (∀ snap, data = some snap → snap.version ≠ 1 →
      importProfileData hash data overwriteProfileId newProfileId now salt txAborts db =
        (.error "Unsupported import version", db))
    ∧ (∀ snap, data = some snap → snap.version = 1 →
        (snap.profile = none ∨ ∃ sp, snap.profile = some sp ∧ sp.name = "") →
      importProfileData hash data overwriteProfileId newProfileId now salt txAborts db =
        (.error "Import is missing profile name", db))
    ∧ (txAborts = true →
        (importProfileData hash data overwriteProfileId newProfileId now salt txAborts
            db).2.progress = db.progress
        ∧ (importProfileData hash data overwriteProfileId newProfileId now salt txAborts
            db).2.quizResults = db.quizResults
        ∧ (∀ opid, overwriteProfileId = some opid →
            (importProfileData hash data overwriteProfileId newProfileId now salt txAborts
              db).2 = db))
    ∧ (txAborts = true → overwriteProfileId = none →
        getProfile db newProfileId = none →
        ((importProfileData hash data overwriteProfileId newProfileId now salt txAborts
            db).2.profiles = db.profiles
         ∨ ∃ p, (importProfileData hash data overwriteProfileId newProfileId now salt txAborts
              db).2.profiles = db.profiles ++ [p]
            ∧ p.profileId = newProfileId)) := by
  refine ⟨?_, ?_, ?_, ?_⟩
  · rintro snap rfl hv
    have hv' : (snap.version != 1) = true := bne_iff_ne.mpr hv
    unfold importProfileData
    simp only []
    rw [if_pos hv']
  · rintro snap rfl h1 hmiss
    unfold importProfileData
    simp only []
    rw [if_neg (by simp [h1])]
    rcases hmiss with hnone | ⟨sp, hsp, hname⟩
    · rw [hnone]
    · rw [hsp]
      simp only []
      rw [if_pos (by simp [hname])]
  · intro ht
    subst ht
    rcases importProfileData_abort_state hash data overwriteProfileId newProfileId now salt db
      with h | ⟨hov, prof, hpid, h⟩
    · rw [h]
      exact ⟨rfl, rfl, fun _ _ => rfl⟩
    · rw [h]
      refine ⟨rfl, rfl, ?_⟩
      intro opid hopid
      rw [hov] at hopid
      cases hopid
  · intro ht hov hfresh
    subst ht
    rcases importProfileData_abort_state hash data overwriteProfileId newProfileId now salt db
      with h | ⟨-, prof, hpid, h⟩
    · left
      rw [h]
    · right
      refine ⟨prof, ?_, hpid⟩
      rw [h]
      show putProfileRow prof db.profiles = db.profiles ++ [prof]
      apply putProfileRow_of_fresh
      rw [hpid]
      exact hfresh

theorem importProfileData_failure_semantics_witness :
    importProfileData exampleHash (some { demoSnap with version := 2 }) none "p9" "tI" "s9"
        false pinDemoDb = (.error "Unsupported import version", pinDemoDb) :=
  (importProfileData_failure_semantics exampleHash (some { demoSnap with version := 2 }) none
    "p9" "tI" "s9" false pinDemoDb).1 { demoSnap with version := 2 } rfl (by decide)

theorem normOpt_idem (o : Option String) : normOpt (normOpt o) = normOpt o := by
  unfold normOpt
  by_cases h : optTruthy o = true
  · rw [if_pos h, if_pos h]
  · rw [if_neg h, if_neg (by simp [optTruthy])]

/-- When no snapshot progress entry has a falsy lessonId, the import progress
loop is a plain sequence of upserts of the translated rows. -/
theorem import_progress_fold_no_skip (entries : List ProgressExport) (pid : String)
    (cur : List ProgressRow) (h : ∀ e ∈ entries, e.lessonId ≠ "") :
    entries.foldl (fun l p => if p.lessonId == "" then l
        else putProgressRow (importProgressRow pid p) l) cur
      = (entries.map (importProgressRow pid)).foldl (fun l r => putProgressRow r l) cur := by
  induction entries generalizing cur with
  | nil => rfl
  | cons e t ih =>
    rw [List.foldl_cons, List.map_cons, List.foldl_cons,
      if_neg (by simp [h e (List.mem_cons_self e t)])]
    exact ih _ (fun x hx => h x (List.mem_cons_of_mem e hx))

/-- Upserting rows whose keys are fresh for the current store and pairwise
distinct appends them in order. -/
theorem foldl_putProgress_append (entries : List ProgressRow) (cur : List ProgressRow)
    (hdisj : ∀ e ∈ entries, ∀ c ∈ cur, progKey c ≠ progKey e)
    (hpw : List.Pairwise (fun a b => progKey a ≠ progKey b) entries) :
    entries.foldl (fun l e => putProgressRow e l) cur = cur ++ entries := by
  induction entries generalizing cur with
  | nil => simp
  | cons e t ih =>
    rw [List.foldl_cons]
    have hput : putProgressRow e cur = cur ++ [e] := by
      unfold putProgressRow
      rw [if_neg]
      intro hany
      rcases List.any_eq_true.mp hany with ⟨c, hc, hpc⟩
      exact hdisj e (List.mem_cons_self e t) c hc (beq_iff_eq.mp hpc)
    rw [hput, ih]
    · rw [List.append_assoc, List.singleton_append]
    · intro x hx c hc
      rcases List.mem_append.mp hc with hc | hc
      · exact hdisj x (List.mem_cons_of_mem e hx) c hc
      · rw [List.mem_singleton.mp hc]
        exact fun hk => (List.pairwise_cons.mp hpw).1 x hx hk
    · exact (List.pairwise_cons.mp hpw).2

/-- The per-lesson map fold is unchanged when every row is translated by a
function preserving lessonId, completed, and completedAt up to `normOpt`. -/
theorem progressMapFold_congr (rows : List ProgressRow) (f : ProgressRow → ProgressRow)
    (hl : ∀ r, (f r).lessonId = r.lessonId)
    (hc : ∀ r, (f r).completed = r.completed)
    (ha : ∀ r, normOpt (f r).completedAt = normOpt r.completedAt) :
    ∀ (m1 m2 : String → Option (Bool × Option String)), (∀ x, m1 x = m2 x) →
    ∀ l, ((rows.map f).foldl
        (fun m r => fun x => if x == r.lessonId then some (r.completed, normOpt r.completedAt)
          else m x) m1) l
      = (rows.foldl
        (fun m r => fun x => if x == r.lessonId then some (r.completed, normOpt r.completedAt)
          else m x) m2) l := by
  induction rows with
  | nil => intro m1 m2 h l; exact h l
  | cons r t ih =>
    intro m1 m2 h l
    rw [List.map_cons, List.foldl_cons, List.foldl_cons]
    apply ih
    intro x
    by_cases hx : (x == (f r).lessonId) = true
    · rw [if_pos hx, if_pos (by rw [hl r] at hx; exact hx), hc r, ha r]
    · rw [if_neg hx, if_neg (by rw [hl r] at hx; exact hx)]
      exact h x

/-- When no snapshot quiz entry has a falsy quizId, the import quiz loop
appends one translated row per entry, each owned by the target profile. -/
theorem import_quiz_fold_append (entries : List QuizExport) (pid now : String)
    (cur : List QuizRow) (n : Nat) (h : ∀ e ∈ entries, e.quizId ≠ "") :
    ∃ newRows,
      (entries.foldl (fun (acc : List QuizRow × Nat) q => if q.quizId == "" then acc
          else (acc.1 ++ [importQuizRow pid now acc.2 q], acc.2 + 1)) (cur, n)).1
        = cur ++ newRows
      ∧ newRows.length = entries.length
      ∧ ∀ r ∈ newRows, r.profileId = pid := by
  induction entries generalizing cur n with
  | nil => exact ⟨[], by simp, rfl, by simp⟩
  | cons e t ih =>
    rw [List.foldl_cons, if_neg (by simp [h e (List.mem_cons_self e t)])]
    obtain ⟨nr, h1, h2, h3⟩ := ih (cur ++ [importQuizRow pid now n e]) (n + 1)
      (fun x hx => h x (List.mem_cons_of_mem e hx))
    refine ⟨importQuizRow pid now n e :: nr, ?_, ?_, ?_⟩
    · rw [h1, List.append_assoc, List.singleton_append]
    · simp [h2]
    · intro r hr
      rcases List.mem_cons.mp hr with rfl | hr
      · rfl
      · exact h3 r hr

/-- C5: importing `export(P)` as a brand-new profile reproduces P's progress
map exactly (same lessonId ↦ completed/completedAt pairs) and the same
number of quizResults rows, differing only in profile identity.  Hypotheses:
the new profileId is fresh in all three stores (a fresh UUID), P's name is
valid, P's rows carry truthy lessonIds/quizIds (the import loop skips falsy
ones), and the progress store satisfies its composite-key uniqueness
invariant. -/
theorem export_import_roundtrip (hash : String → String → String)
    (db : Db) (profileId newProfileId tE tI salt : String)
    (P : Profile) (snap : Snapshot)
    (hP : getProfile db profileId = some P)
    (hname : jsTrim P.name ≠ "")
    (hexp : exportProfileData db profileId tE = .ok snap)
    (hfreshProg : ∀ r ∈ db.progress, r.profileId ≠ newProfileId)
    (hfreshQuiz : ∀ r ∈ db.quizResults, r.profileId ≠ newProfileId)
    (hlids : ∀ r ∈ db.progress, r.profileId = profileId → r.lessonId ≠ "")
    (hqids : ∀ r ∈ db.quizResults, r.profileId = profileId → r.quizId ≠ "")
    (huniq : List.Pairwise (fun a b => progKey a ≠ progKey b)
      (db.progress.filter (fun r => r.profileId == profileId))) :
    (importProfileData hash (some snap) none newProfileId tI salt false db).1 =
      .ok newProfileId
    ∧ (∀ l, getProgressMap
        (importProfileData hash (some snap) none newProfileId tI salt false db).2
        newProfileId l = getProgressMap db profileId l)
    ∧ ((importProfileData hash (some snap) none newProfileId tI salt false
          db).2.quizResults.filter (fun r => r.profileId == newProfileId)).length =
      (db.quizResults.filter (fun r => r.profileId == profileId)).length := by
  unfold exportProfileData at hexp
  rw [hP] at hexp
  simp only [Except.ok.injEq] at hexp
  obtain ⟨hv, hprof, hprog, hquiz⟩ : snap.version = 1
      ∧ snap.profile = some { profileId := P.profileId, name := P.name,
                              createdAt := P.createdAt, updatedAt := P.updatedAt }
      ∧ snap.progress = (db.progress.filter (fun r => r.profileId == profileId)).map
          (fun r => { lessonId := r.lessonId, completed := r.completed,
                      completedAt := normOpt r.completedAt })
      ∧ snap.quizResults = (db.quizResults.filter (fun r => r.profileId == profileId)).map
          (fun r => { quizId := r.quizId, score := r.score,
                      totalQuestions := r.totalQuestions, answers := r.answers,
                      completedAt := r.completedAt }) := by
    rw [← hexp]
    exact ⟨rfl, rfl, rfl, rfl⟩
  have hPname : P.name ≠ "" := by
    intro h0
    apply hname
    rw [h0]
    rfl
  have hnb : ¬ (P.name == "") = true := by simpa using hPname
  have hv' : (snap.version != 1) = false := by
    rw [hv]
    decide
  set np : Profile := { profileId := newProfileId, name := jsTrim P.name, createdAt := tI,
                        updatedAt := tI, pinSalt := none, pinHash := none } with hnp
  set db1 : Db := { db with profiles := putProfileRow np db.profiles } with hdb1e
  have hc : createProfile hash newProfileId tI salt P.name none db = .ok (np, db1) := by
    unfold createProfile
    rw [if_neg (by simpa using hname)]
  have himp : importProfileData hash (some snap) none newProfileId tI salt false db =
      (.ok newProfileId, importTxBody snap newProfileId P.name tI db1) := by
    unfold importProfileData
    simp only []
    rw [hv']
    rw [if_neg (by simp)]
    rw [hprof]
    simp only []
    rw [if_neg hnb]
    rw [hc]
    rfl
  rw [himp]
  have hdb1prog : db1.progress = db.progress := rfl
  have hprogress : (importTxBody snap newProfileId P.name tI db1).progress =
      db.progress ++ (db.progress.filter (fun r => r.profileId == profileId)).map
        (fun r => importProgressRow newProfileId
          { lessonId := r.lessonId, completed := r.completed,
            completedAt := normOpt r.completedAt }) := by
    rw [importTxBody_progress, hprog, hdb1prog]
    rw [import_progress_fold_no_skip]
    · rw [List.map_map]
      apply foldl_putProgress_append
      · intro e he c hc'
        rcases List.mem_map.mp he with ⟨r, hr, rfl⟩
        intro hk
        have hcp : c.profileId = newProfileId := congrArg Prod.fst hk
        exact hfreshProg c hc' hcp
      · rw [List.pairwise_map]
        refine List.Pairwise.imp_of_mem ?_ huniq
        intro a b ha hb hk
        have hap : a.profileId = profileId := by
          have := (List.mem_filter.mp ha).2
          simpa using this
        have hbp : b.profileId = profileId := by
          have := (List.mem_filter.mp hb).2
          simpa using this
        intro hkeq
        apply hk
        have hless : a.lessonId = b.lessonId := congrArg Prod.snd hkeq
        unfold progKey
        rw [hap, hbp, hless]
    · intro e he
      rcases List.mem_map.mp he with ⟨r, hr, rfl⟩
      obtain ⟨hrin, hrp⟩ := List.mem_filter.mp hr
      exact hlids r hrin (by simpa using hrp)
  refine ⟨rfl, ?_, ?_⟩
  · intro l
    unfold getProgressMap
    rw [hprogress, List.filter_append]
    have hleft : db.progress.filter (fun r => r.profileId == newProfileId) = [] := by
      rw [List.filter_eq_nil_iff]
      intro r hr hb
      exact hfreshProg r hr (by simpa using hb)
    have hright : ((db.progress.filter (fun r => r.profileId == profileId)).map
        (fun r => importProgressRow newProfileId
          { lessonId := r.lessonId, completed := r.completed,
            completedAt := normOpt r.completedAt })).filter
        (fun r => r.profileId == newProfileId) =
        (db.progress.filter (fun r => r.profileId == profileId)).map
        (fun r => importProgressRow newProfileId
          { lessonId := r.lessonId, completed := r.completed,
            completedAt := normOpt r.completedAt }) := by
      rw [List.filter_eq_self]
      intro r hr
      rcases List.mem_map.mp hr with ⟨x, hx, rfl⟩
      simp [importProgressRow]
    rw [hleft, hright, List.nil_append]
    exact progressMapFold_congr _
      (fun r => importProgressRow newProfileId
        { lessonId := r.lessonId, completed := r.completed,
          completedAt := normOpt r.completedAt })
      (fun r => rfl) (fun r => rfl)
      (fun r => by
        show normOpt (normOpt (normOpt r.completedAt)) = normOpt r.completedAt
        rw [normOpt_idem, normOpt_idem])
      _ _ (fun x => rfl) l
  · rw [importTxBody_quizResults, hquiz]
    have hdb1q : db1.quizResults = db.quizResults := rfl
    have hdb1n : db1.nextQuizId = db.nextQuizId := rfl
    rw [hdb1q, hdb1n]
    obtain ⟨newRows, h1, h2, h3⟩ := import_quiz_fold_append
      ((db.quizResults.filter (fun r => r.profileId == profileId)).map
        (fun r => { quizId := r.quizId, score := r.score,
                    totalQuestions := r.totalQuestions, answers := r.answers,
                    completedAt := r.completedAt }))
      newProfileId tI db.quizResults db.nextQuizId
      (by
        intro e he
        rcases List.mem_map.mp he with ⟨r, hr, rfl⟩
        obtain ⟨hrin, hrp⟩ := List.mem_filter.mp hr
        exact hqids r hrin (by simpa using hrp))
    rw [h1, List.filter_append]
    have hleft : db.quizResults.filter (fun r => r.profileId == newProfileId) = [] := by
      rw [List.filter_eq_nil_iff]
      intro r hr hb
      exact hfreshQuiz r hr (by simpa using hb)
    have hright : newRows.filter (fun r => r.profileId == newProfileId) = newRows := by
      rw [List.filter_eq_self]
      intro r hr
      simp [h3 r hr]
    rw [hleft, hright, List.nil_append, h2, List.length_map]

theorem export_import_roundtrip_witness :
    (importProfileData exampleHash
        (some { version := 1, exportedAt := "tE",
                profile := some { profileId := "p1", name := "Ava",
                                  createdAt := "t0", updatedAt := "t0" },
                progress := [{ lessonId := "l1", completed := true, completedAt := some "t1" },
                             { lessonId := "l2", completed := false, completedAt := none }],
                quizResults := [{ quizId := "q1", score := 9, totalQuestions := 10,
                                  answers := [], completedAt := "t2" }] })
        none "p9" "tI" "s9" false roundTripDemoDb).1 = .ok "p9"
    ∧ getProgressMap
        (importProfileData exampleHash
          (some { version := 1, exportedAt := "tE",
                  profile := some { profileId := "p1", name := "Ava",
                                    createdAt := "t0", updatedAt := "t0" },
                  progress := [{ lessonId := "l1", completed := true, completedAt := some "t1" },
                               { lessonId := "l2", completed := false, completedAt := none }],
                  quizResults := [{ quizId := "q1", score := 9, totalQuestions := 10,
                                    answers := [], completedAt := "t2" }] })
          none "p9" "tI" "s9" false roundTripDemoDb).2 "p9" "l1" =
        getProgressMap roundTripDemoDb "p1" "l1" := by
  have h := export_import_roundtrip exampleHash roundTripDemoDb "p1" "p9" "tE" "tI" "s9"
    ({ profileId := "p1", name := "Ava", createdAt := "t0", updatedAt := "t0",
       pinSalt := none, pinHash := none })
    ({ version := 1, exportedAt := "tE",
       profile := some { profileId := "p1", name := "Ava",
                         createdAt := "t0", updatedAt := "t0" },
       progress := [{ lessonId := "l1", completed := true, completedAt := some "t1" },
                    { lessonId := "l2", completed := false, completedAt := none }],
       quizResults := [{ quizId := "q1", score := 9, totalQuestions := 10,
                         answers := [], completedAt := "t2" }] })
    (by decide) (by decide) (by decide) (by decide) (by decide) (by decide) (by decide)
    (by decide)
  exact ⟨h.1, h.2.1 "l1"⟩
